import Mathlib

/-!
# Verification of the bocoel core: run identity, run loop, persistence, index construction

Shallow embedding of the core of the `bocoel` repository:

* `src/bocoel/core/exams/managers.py` — the `Manager` class: the run loop
  (`run` / `_launch`), the run-identity digest (`md5`), augmentation of the
  scores table (`with_identifier_cols`), and persistence (`save` / `load`).
* `src/bocoel/corpora/indices/backend/faiss.py` — `FaissIndex.__init__` and its
  `dims` / `boundary` properties.

External collaborators (optimizer, model, adaptor, embedder, corpus storage and
corpus index) enter the manager only through their string descriptors (`str(x)`
in the source), so they are embedded as `String`s; a corpus contributes the two
descriptors `str(corpus.index.index)` and `str(corpus.storage)`.

Repository modules that are referenced by the embedded files but are not part
of the provided sources (`bocoel.corpora.indices.utils`,
`bocoel.corpora.indices.interfaces.Distance`, `bocoel.core.exams.columns`,
`bocoel.core.exams.examinators`) are modelled from the specification; each such
definition carries a doc comment starting with `Modelled from the spec:`.
-/

/-- Error taxonomy of the specification.  In the Python source both
`InvalidArgument` and `InvalidState` surface as `ValueError`; the specification
distinguishes them and the claims name them, so the embedding keeps them apart.
`assertionFailed` models a failing `assert` statement. -/
inductive Err where
  | invalidArgument
  | invalidState
  | assertionFailed
deriving DecidableEq, Repr

/-- Models Python's `" ".join(items)`: concatenation of the items separated by
a single space. -/
def joinSpace : List String → String
  | [] => ""
  | [x] => x
  | x :: xs => x ++ " " ++ joinSpace xs

/-- A corpus, as seen by `Manager`: the source only ever uses
`str(corpus.index.index)` and `str(corpus.storage)`, so a corpus is embedded as
that pair of descriptor strings. -/
structure Corpus where
  indexIndex : String
  storage : String
deriving DecidableEq, Repr

/-- The `Manager` object state: the optional output directory (`self.path`)
and the start timestamp string recorded once at construction
(`self._start = self.current()`). -/
structure Manager where
  path : Option String
  start : String
deriving DecidableEq, Repr

namespace Manager

/-- `Manager.__init__`: records the optional output directory and the start
timestamp (`self.current()` at construction time, passed here explicitly as
`now` since the embedding has no clock).  The source also validates that an
existing `path` is a directory and creates it; the file-system model below
contains only directories, so that validation is always satisfied there and is
not embedded. -/
def init (path : Option String) (now : String) : Manager :=
  { path := path, start := now }

/-- The pre-image string fed to the digest by `Manager.md5`: the source builds
`data = [optimizer, embedder, corpus.index.index, corpus.storage, model,
adaptor, time]` and joins `str(item)` for each item with `" "`. -/
def md5Input (optimizer : String) (corpus : Corpus) (model adaptor embedder time : String) :
    String :=
  joinSpace
    [optimizer, embedder, corpus.indexIndex, corpus.storage, model, adaptor, time]

/-- `Manager.md5`: the run identity.  The source hashes the joined descriptor
string with `hashlib.md5(...).hexdigest()`; the digest function (Python
standard library, and per the spec an implementation detail whose only
requirements are determinism and collision-freedom) is taken as the explicit
parameter `digest` applied to the joined pre-image. -/
def md5 (digest : String → String) (optimizer : String) (corpus : Corpus)
    (model adaptor embedder time : String) : String :=
  digest (md5Input optimizer corpus model adaptor embedder time)

end Manager

/-! ## The run loop

An optimizer is embedded by the sequence of step results it would produce
before raising `StopIteration`: `optimizer.step()` returns the next element
while one remains and signals exhaustion afterwards.  Step results are
mappings from corpus row index to score; scores are never computed with, so
the score type is a parameter `V`. -/

/-- An optimizer stub: the finite sequence of step results produced before the
optimizer signals exhaustion (raises `StopIteration` from `step()`). -/
structure Optimizer (V : Type) where
  steps : List (List (Nat × V))

namespace Manager

/-- The bounded loop of `Manager._launch` when a `steps` budget is present:
`for _ in range(steps)` calling `optimizer.step()` each iteration, breaking on
`StopIteration` (exhaustion), yielding each step result. -/
def launchBounded {V : Type} : Nat → List (List (Nat × V)) → List (List (Nat × V))
  | 0, _ => []
  | _ + 1, [] => []
  | n + 1, r :: rest => r :: launchBounded n rest

/-- `Manager._launch`: yields the optimizer's step results until the optimizer
signals exhaustion or the optional `steps` budget is consumed.  With
`steps=None` the source iterates `itertools.count()`, stopping only on
`StopIteration`, hence yields every step result. -/
def _launch {V : Type} (optimizer : Optimizer V) (steps : Option Nat) :
    List (List (Nat × V)) :=
  match steps with
  | none => optimizer.steps
  | some n => launchBounded n optimizer.steps

end Manager

/-- One `results.update(res)` of the run loop: Python `dict.update` iterates
the entries of `res` in order, setting each key to its value (a later entry
for the same key overwrites an earlier one).  The accumulator dictionary is
embedded as a function `Nat → Option V`. -/
def dictUpdate {V : Type} (d : Nat → Option V) (res : List (Nat × V)) : Nat → Option V :=
  res.foldl (fun acc kv => fun k => if k = kv.1 then some kv.2 else acc k) d

/-- The accumulator built by `Manager.run`: starting from the empty
`OrderedDict`, fold `results.update(res)` over the launched step results. -/
def accumulate {V : Type} (stepResults : List (List (Nat × V))) : Nat → Option V :=
  stepResults.foldl dictUpdate (fun _ => none)

namespace Manager

/-- `Manager.run`: drives `_launch` and merges every step result into the
accumulator.  Modelled from the spec: the final
`self.examinator.examine(index=corpus.index, results=results)` belongs to the
`examinators` module, which is not among the provided sources; per the
source's own docstring the returned value is the final mapping from query
indices to scores, so `run` returns the accumulated results. -/
def run {V : Type} (optimizer : Optimizer V) (steps : Option Nat) : Nat → Option V :=
  accumulate (_launch optimizer steps)

end Manager

/-! ## Specification-side description of the merge (for the last-write-wins claim) -/

/-- Specification-side reading of one step mapping: the value attached to key
`k` by the step result `res`, its last occurrence winning (how a Python dict
built from `res` would answer `res[k]`). -/
def lookupLast {V : Type} : List (Nat × V) → Nat → Option V
  | [], _ => none
  | kv :: rest, k =>
    match lookupLast rest k with
    | some v => some v
    | none => if k = kv.1 then some kv.2 else none

/-- Specification-side reading of the aggregation: the value for key `k` is
the one from the latest step whose mapping contains `k`. -/
def latestStepValue {V : Type} : List (List (Nat × V)) → Nat → Option V
  | [], _ => none
  | res :: rest, k =>
    match latestStepValue rest k with
    | some v => some v
    | none => lookupLast res k

/-! ## DataFrames, the object heap, and the file system

A pandas `DataFrame` is embedded row-wise: each row is an ordered association
of column name to cell value; `with_identifier_cols` only ever writes string
cells, so cells are `String`s.  Python objects are mutable and aliased, so the
frames live on an explicit heap (a list of frames addressed by index): this is
what makes "does not mutate the input table" a real statement. -/

/-- Update the first entry with key `k` to `v`, or append `(k, v)` if `k` is
absent; models assignment into an ordered string-keyed mapping. -/
def upsertAssoc {α : Type} : List (String × α) → String → α → List (String × α)
  | [], k, v => [(k, v)]
  | kv :: rest, k, v =>
    if kv.1 = k then (k, v) :: rest else kv :: upsertAssoc rest k v

/-- First value stored under key `k`, if any. -/
def assocLookup {α : Type} : List (String × α) → String → Option α
  | [], _ => none
  | kv :: rest, k => if kv.1 = k then some kv.2 else assocLookup rest k

/-- A pandas `DataFrame`, row-wise: each row maps column names to cells. -/
structure DataFrame where
  rows : List (List (String × String))
deriving DecidableEq, Repr

instance : Inhabited DataFrame := ⟨⟨[]⟩⟩

namespace DataFrame

/-- `len(df)`: the number of rows. -/
def len (df : DataFrame) : Nat := df.rows.length

/-- `df[column] = [data] * len(df)`: every row's `column` cell becomes
`data` (the column is created when absent). -/
def assignCol (df : DataFrame) (column data : String) : DataFrame :=
  ⟨df.rows.map (fun r => upsertAssoc r column data)⟩

/-- `pd.concat(dfs)`: vertical concatenation, rows stacked in order. -/
def concatAll (dfs : List DataFrame) : DataFrame :=
  ⟨(dfs.map rows).flatten⟩

end DataFrame

/-- The object heap: frames addressed by index.  `heap.getD r` reads the frame
behind reference `r`. -/
def Heap := List DataFrame

/-- Read the frame behind reference `r` (default empty frame for a dangling
reference, which the Python source would never produce). -/
def heapGet (h : Heap) (r : Nat) : DataFrame := List.getD h r default

/-- Overwrite the frame behind reference `r` in place. -/
def heapSet (h : Heap) (r : Nat) (df : DataFrame) : Heap := List.set h r df

/-- `df.copy()`: allocate a fresh frame with the same contents; returns the
extended heap and the fresh reference. -/
def heapCopy (h : Heap) (r : Nat) : Heap × Nat :=
  (List.append h [heapGet h r], List.length h)

/-- In-place `df[column] = [data] * len(df)` on the frame behind `r`. -/
def heapAssign (h : Heap) (r : Nat) (column data : String) : Heap :=
  heapSet h r ((heapGet h r).assignCol column data)

/-- The file system, as the manager sees it: a set of existing directories,
each holding named files whose contents are frames (a CSV file read back with
`pd.read_csv` is its frame).  Paths that are plain files are out of scope:
every claim exercises directories and missing paths only. -/
structure FS where
  dirs : List (String × List (String × DataFrame))
deriving DecidableEq, Repr

/-- The glob pattern `"*.csv"`: matches exactly the names ending in `.csv`. -/
def isCsvName (name : String) : Bool :=
  List.isSuffixOf ".csv".data name.data

namespace FS

/-- The files of directory `p`, or `none` when no such directory exists. -/
def dirFiles (fs : FS) (p : String) : Option (List (String × DataFrame)) :=
  assocLookup fs.dirs p

/-- `Path(p).glob("*.csv")` followed by `pd.read_csv` on each match: the
frames of the `.csv`-named files of `p`, in directory order; a missing
directory yields no matches (CPython's `glob` raises nothing there). -/
def globCsv (fs : FS) (p : String) : List DataFrame :=
  match dirFiles fs p with
  | none => []
  | some files =>
    (files.filter (fun f => isCsvName f.1)).map (fun f => f.2)

/-- `df.to_csv(dir / name)`: write (or overwrite) file `name` of directory
`p`.  The manager's constructor created the directory, so a missing directory
is created here as well. -/
def write (fs : FS) (p name : String) (df : DataFrame) : FS :=
  match dirFiles fs p with
  | none => ⟨fs.dirs ++ [(p, [(name, df)])]⟩
  | some files => ⟨upsertAssoc fs.dirs p (upsertAssoc files name df)⟩

end FS

/-! Modelled from the spec: the `bocoel.core.exams.columns` module (not among
the provided sources) supplies the identifier column names; the claims depend
only on these being fixed strings. -/

namespace columns

def OPTIMIZER : String := "optimizer"

def MODEL : String := "model"

def ADAPTOR : String := "adaptor"

def INDEX : String := "index"

def STORAGE : String := "storage"

def EMBEDDER : String := "embedder"

def TIME : String := "time"

def MD5 : String := "md5"

end columns

namespace Manager

/-- `Manager.with_identifier_cols`: copies the frame (`df = df.copy()`),
computes the run identity from the descriptors and the manager's recorded
start time, assigns the eight identifier columns on the copy, and returns the
identity with (a reference to) the augmented copy, together with the resulting
heap. -/
def with_identifier_cols (mgr : Manager) (digest : String → String) (h : Heap)
    (dfRef : Nat) (optimizer : String) (corpus : Corpus)
    (model adaptor embedder : String) : Heap × String × Nat :=
  let copied := heapCopy h dfRef
  let h1 := copied.1
  let r := copied.2
  let md5v := md5 digest optimizer corpus model adaptor embedder mgr.start
  let h2 := heapAssign h1 r columns.OPTIMIZER optimizer
  let h3 := heapAssign h2 r columns.MODEL model
  let h4 := heapAssign h3 r columns.ADAPTOR adaptor
  let h5 := heapAssign h4 r columns.INDEX corpus.indexIndex
  let h6 := heapAssign h5 r columns.STORAGE corpus.storage
  let h7 := heapAssign h6 r columns.EMBEDDER embedder
  let h8 := heapAssign h7 r columns.TIME mgr.start
  let h9 := heapAssign h8 r columns.MD5 md5v
  (h9, md5v, r)

/-- `Manager.save`: augments the scores frame with the identifier columns,
then — only after that — checks the output directory; with no directory
configured it raises (`ValueError` in the source, `InvalidState` in the
taxonomy) without touching the file system, otherwise it writes the augmented
frame to `<md5>.csv` inside the directory.  Returns the heap after the call,
the file system after the call, and the raised error if any. -/
def save (mgr : Manager) (digest : String → String) (h : Heap) (scoresRef : Nat)
    (optimizer : String) (corpus : Corpus) (model adaptor embedder : String)
    (fs : FS) : Heap × FS × Option Err :=
  let aug := mgr.with_identifier_cols digest h scoresRef optimizer corpus model
    adaptor embedder
  let h1 := aug.1
  let md5v := aug.2.1
  let augRef := aug.2.2
  match mgr.path with
  | none => (h1, fs, some Err.invalidState)
  | some p => (h1, fs.write p (md5v ++ ".csv") (heapGet h1 augRef), none)

/-- `Manager.load`: reads every `*.csv` file of `path` and concatenates the
frames; raises (`ValueError` / `InvalidArgument`) when no csv file is found
there — which is also what happens on a missing path, since `glob` yields
nothing on one. -/
def load (fs : FS) (path : String) : Except Err DataFrame :=
  let dfs := fs.globCsv path
  if dfs.isEmpty then Except.error Err.invalidArgument
  else Except.ok (DataFrame.concatAll dfs)

end Manager

/-! ## The FAISS-backed index (`FaissIndex.__init__`, `dims`, `boundary`)

Embedding entries are IEEE floating-point numbers in the source; the claims
about the index concern its shape, the `boundary.dims` invariant and the
validation errors, never floating-point arithmetic, so an entry is embedded as
either a finite value (an exact rational) or one of the non-finite values. -/

/-- A numpy scalar: finite (carried exactly as a rational) or non-finite. -/
inductive PyFloat where
  | fin (q : ℚ)
  | posInf
  | negInf
  | nan
deriving DecidableEq, Repr

/-- `np.isfinite` on one scalar. -/
def PyFloat.isFinite : PyFloat → Bool
  | .fin _ => true
  | _ => false

/-- The rational carried by a finite scalar (0 for non-finite ones, which
every use below rules out beforehand). -/
def PyFloat.toRat : PyFloat → ℚ
  | .fin q => q
  | _ => 0

/-- A two-dimensional numpy array of shape `(rows.length, ncols)`;
rectangularity is part of the type. -/
structure NDArray where
  rows : List (List PyFloat)
  ncols : Nat
  rect : ∀ r ∈ rows, r.length = ncols

/-- Modelled from the spec: the `Distance` enumeration of
`bocoel.corpora.indices.interfaces` (not among the provided sources), metric
kind `L2` or `INNER_PRODUCT`. -/
inductive Distance where
  | l2
  | innerProduct
deriving DecidableEq, Repr

/-- Modelled from the spec: `Distance.lookup(name-or-value)` resolves a string
or an enum member to a `Distance` and fails with `InvalidArgument` on an
unknown name. -/
def Distance.lookup : String ⊕ Distance → Except Err Distance
  | .inr d => Except.ok d
  | .inl "L2" => Except.ok .l2
  | .inl "INNER_PRODUCT" => Except.ok .innerProduct
  | .inl _ => Except.error Err.invalidArgument

/-- Per-dimension `(min, max)` pairs of the indexed embedding set. -/
structure Boundary where
  bounds : List (ℚ × ℚ)
deriving DecidableEq, Repr

/-- `Boundary.dims`: the dimensionality described by the boundary. -/
def Boundary.dims (b : Boundary) : Nat := b.bounds.length

/-- Sum of squares of a row (its squared L2 norm), on finite entries. -/
def rowNormSq (r : List PyFloat) : ℚ :=
  (r.map (fun x => x.toRat * x.toRat)).sum

/-- One row of `utils.normalize`: a row of zero norm is left unchanged (the
documented degenerate case), every other row is scaled entrywise by the
inverse of its norm.  The true scale factor `1/sqrt(rowNormSq r)` is
irrational in general; no claim depends on the numeric values of normalized
entries, only on the shape and finiteness being preserved, so the scaling is
represented by the exact positive factor `1/rowNormSq r` (same zero rows, same
shape, finite values to finite values). -/
def normalizeRow (r : List PyFloat) : List PyFloat :=
  if rowNormSq r = 0 then r
  else r.map (fun x => PyFloat.fin (x.toRat / rowNormSq r))

/-- `normalizeRow` preserves the length of the row. -/
theorem normalizeRow_length (r : List PyFloat) : (normalizeRow r).length = r.length := by
  unfold normalizeRow
  split
  · rfl
  · simp

namespace utils

/-- Modelled from the spec: `utils.normalize` of
`bocoel.corpora.indices.utils` (not among the provided sources) divides each
row by its L2 norm, leaves zero-norm rows as the zero vector, and — per the
construction contract — fails with `InvalidArgument` when the data contains
non-finite values. -/
def normalize (e : NDArray) : Except Err NDArray :=
  if e.rows.all (fun r => r.all PyFloat.isFinite) then
    Except.ok
      { rows := e.rows.map normalizeRow
        ncols := e.ncols
        rect := by
          intro r hr
          rcases List.mem_map.mp hr with ⟨r0, hr0, rfl⟩
          rw [normalizeRow_length]
          exact e.rect r0 hr0 }
  else Except.error Err.invalidArgument

/-- Minimum of column `j` over the rows (finite entries). -/
def colMin (e : NDArray) (j : Nat) : ℚ :=
  ((e.rows.map (fun r => (r.getD j (PyFloat.fin 0)).toRat)).foldr min 0)

/-- Maximum of column `j` over the rows (finite entries). -/
def colMax (e : NDArray) (j : Nat) : ℚ :=
  ((e.rows.map (fun r => (r.getD j (PyFloat.fin 0)).toRat)).foldr max 0)

/-- Modelled from the spec: `utils.boundaries` of
`bocoel.corpora.indices.utils` (not among the provided sources) returns the
`Boundary` whose per-dimension `(min, max)` are the column-wise extrema of the
embedding matrix, with `dims` equal to the column count; per the construction
contract it fails with `InvalidArgument` on an empty embedding set (`N=0` or
`D=0`). -/
def boundaries (e : NDArray) : Except Err Boundary :=
  if e.rows.length = 0 ∨ e.ncols = 0 then Except.error Err.invalidArgument
  else
    Except.ok ⟨(List.range e.ncols).map (fun j => (colMin e j, colMax e j))⟩

end utils

/-- The constructed FAISS index state: the (possibly normalized) embeddings,
the batch size, the resolved distance, the boundary, and the backend index
configuration string.  The backend handle built by `_init_index` (an external
faiss object) carries no state any claim observes and is not embedded. -/
structure FaissIndex where
  embeddings : NDArray
  batchSize : Nat
  dist : Distance
  boundary : Boundary
  indexString : String

namespace FaissIndex

/-- `FaissIndex.dims`: `self.__embeddings.shape[1]`. -/
def dims (idx : FaissIndex) : Nat := idx.embeddings.ncols

/-- `FaissIndex.__init__` in source order: optionally normalize the
embeddings, store them, store the batch size, resolve the distance, compute
the boundary, and assert `boundary.dims == embeddings.shape[1]` (embedded as a
guard producing `assertionFailed`, proven unreachable below). -/
def init (embeddings : NDArray) (distance : String ⊕ Distance) (normalize : Bool)
    (indexString : String) (batchSize : Nat) : Except Err FaissIndex := do
  let e ← if normalize then utils.normalize embeddings else Except.ok embeddings
  let d ← Distance.lookup distance
  let b ← utils.boundaries e
  if b.dims = e.ncols then
    Except.ok
      { embeddings := e, batchSize := batchSize, dist := d, boundary := b
        indexString := indexString }
  else Except.error Err.assertionFailed

end FaissIndex

/-- A packaging of the five descriptor-bearing arguments of `Manager.save`
(everything except the scores frame), used to speak about "changing one
descriptor" between two runs. -/
structure RunDescr where
  optimizer : String
  corpus : Corpus
  model : String
  adaptor : String
  embedder : String
deriving DecidableEq, Repr

/-- Exactly one of the six descriptor strings (optimizer, corpus index
descriptor, corpus storage descriptor, model, adaptor, embedder) differs
between the two runs, the other five being fixed. -/
def DiffersInOneDescr (d1 d2 : RunDescr) : Prop :=
  (d1.optimizer ≠ d2.optimizer ∧ d1.corpus = d2.corpus ∧ d1.model = d2.model ∧
    d1.adaptor = d2.adaptor ∧ d1.embedder = d2.embedder)
  ∨ (d1.corpus.indexIndex ≠ d2.corpus.indexIndex ∧
      d1.corpus.storage = d2.corpus.storage ∧ d1.optimizer = d2.optimizer ∧
      d1.model = d2.model ∧ d1.adaptor = d2.adaptor ∧ d1.embedder = d2.embedder)
  ∨ (d1.corpus.storage ≠ d2.corpus.storage ∧
      d1.corpus.indexIndex = d2.corpus.indexIndex ∧ d1.optimizer = d2.optimizer ∧
      d1.model = d2.model ∧ d1.adaptor = d2.adaptor ∧ d1.embedder = d2.embedder)
  ∨ (d1.model ≠ d2.model ∧ d1.optimizer = d2.optimizer ∧ d1.corpus = d2.corpus ∧
      d1.adaptor = d2.adaptor ∧ d1.embedder = d2.embedder)
  ∨ (d1.adaptor ≠ d2.adaptor ∧ d1.optimizer = d2.optimizer ∧ d1.corpus = d2.corpus ∧
      d1.model = d2.model ∧ d1.embedder = d2.embedder)
  ∨ (d1.embedder ≠ d2.embedder ∧ d1.optimizer = d2.optimizer ∧ d1.corpus = d2.corpus ∧
      d1.model = d2.model ∧ d1.adaptor = d2.adaptor)

/-! # Theorems -/

/-! ## String cancellation infrastructure for the identity pre-image -/

theorem strCancelLeft {a b c : String} (h : a ++ b = a ++ c) : b = c := by
  apply String.ext
  have h2 := congrArg String.data h
  simp only [String.data_append] at h2
  exact List.append_cancel_left h2

theorem strCancelRight {a b c : String} (h : a ++ c = b ++ c) : a = b := by
  apply String.ext
  have h2 := congrArg String.data h
  simp only [String.data_append] at h2
  exact List.append_cancel_right h2

/-- The pre-image of the digest, written out: the seven descriptors in source
order, separated by single spaces. -/
theorem md5Input_eq (o : String) (c : Corpus) (m a e t : String) :
    Manager.md5Input o c m a e t =
      (o ++ " ") ++ ((e ++ " ") ++ ((c.indexIndex ++ " ") ++ ((c.storage ++ " ") ++
        ((m ++ " ") ++ ((a ++ " ") ++ t))))) := rfl

theorem md5Input_inj_optimizer {o o' : String} {c : Corpus} {m a e t : String}
    (h : Manager.md5Input o c m a e t = Manager.md5Input o' c m a e t) : o = o' := by
  rw [md5Input_eq, md5Input_eq] at h
  exact strCancelRight (strCancelRight h)

theorem md5Input_inj_embedder {o : String} {c : Corpus} {m a e e' t : String}
    (h : Manager.md5Input o c m a e t = Manager.md5Input o c m a e' t) : e = e' := by
  rw [md5Input_eq, md5Input_eq] at h
  exact strCancelRight (strCancelRight (strCancelLeft h))

theorem md5Input_inj_model {o : String} {c : Corpus} {m m' a e t : String}
    (h : Manager.md5Input o c m a e t = Manager.md5Input o c m' a e t) : m = m' := by
  rw [md5Input_eq, md5Input_eq] at h
  exact strCancelRight (strCancelRight
    (strCancelLeft (strCancelLeft (strCancelLeft (strCancelLeft h)))))

theorem md5Input_inj_adaptor {o : String} {c : Corpus} {m a a' e t : String}
    (h : Manager.md5Input o c m a e t = Manager.md5Input o c m a' e t) : a = a' := by
  rw [md5Input_eq, md5Input_eq] at h
  exact strCancelRight (strCancelRight
    (strCancelLeft (strCancelLeft (strCancelLeft (strCancelLeft (strCancelLeft h))))))

theorem md5Input_inj_time {o : String} {c : Corpus} {m a e t t' : String}
    (h : Manager.md5Input o c m a e t = Manager.md5Input o c m a e t') : t = t' := by
  rw [md5Input_eq, md5Input_eq] at h
  exact strCancelLeft (strCancelLeft (strCancelLeft (strCancelLeft
    (strCancelLeft (strCancelLeft h)))))

/-- Changing the corpus changes the pre-image exactly when the corpus's joined
two-field contribution `indexIndex ++ " " ++ storage` changes. -/
theorem md5Input_inj_corpus {o : String} {c c' : Corpus} {m a e t : String}
    (h : Manager.md5Input o c m a e t = Manager.md5Input o c' m a e t) :
    c.indexIndex ++ " " ++ c.storage = c'.indexIndex ++ " " ++ c'.storage := by
  rw [md5Input_eq, md5Input_eq] at h
  have h1 := strCancelLeft (strCancelLeft h)
  apply String.ext
  have h2 := congrArg String.data h1
  simp only [String.data_append, ← List.append_assoc] at h2
  simp only [String.data_append, ← List.append_assoc]
  exact List.append_cancel_right (List.append_cancel_right (List.append_cancel_right
    (List.append_cancel_right (List.append_cancel_right (List.append_cancel_right h2)))))

/-- C1 (counterexample): changing the corpus argument alone does not always
change the digest.  The corpus contributes two adjacent space-joined fields to
the pre-image, so two distinct corpora — index descriptor `"a b"` with storage
`"c"`, versus index descriptor `"a"` with storage `"b c"` — produce the very
same digest pre-image, and hence the same digest whatever digest function is
applied (shown here for the identity digest; since the pre-images are equal,
the real MD5 collides on them as well). -/
theorem C1_counterexample :
    Corpus.mk "a b" "c" ≠ Corpus.mk "a" "b c"
    ∧ Manager.md5Input "o" (Corpus.mk "a b" "c") "m" "ad" "em" "t"
      = Manager.md5Input "o" (Corpus.mk "a" "b c") "m" "ad" "em" "t"
    ∧ Manager.md5 id "o" (Corpus.mk "a b" "c") "m" "ad" "em" "t"
      = Manager.md5 id "o" (Corpus.mk "a" "b c") "m" "ad" "em" "t" :=
  ⟨by decide, by decide, by decide⟩

/-- C1 (amended): `Manager.md5` is deterministic (it is a pure function of its
arguments), and — for any collision-free digest — changing any single one of
the five arguments optimizer, model, adaptor, embedder or time while holding
the other arguments fixed changes the digest; changing the corpus argument
changes the digest whenever the corpus's joined two-field contribution
`indexIndex ++ " " ++ storage` changes (this qualification is forced by the
counterexample above; it holds in particular whenever exactly one of the two
corpus descriptors changes, see the persistence theorem below). -/
theorem C1_md5_deterministic_and_sensitive (digest : String → String)
    (hinj : Function.Injective digest) (o o' : String) (c c' : Corpus)
    (m m' a a' e e' t t' : String) :
    Manager.md5 digest o c m a e t = Manager.md5 digest o c m a e t
    ∧ (o ≠ o' → Manager.md5 digest o c m a e t ≠ Manager.md5 digest o' c m a e t)
    ∧ (m ≠ m' → Manager.md5 digest o c m a e t ≠ Manager.md5 digest o c m' a e t)
    ∧ (a ≠ a' → Manager.md5 digest o c m a e t ≠ Manager.md5 digest o c m a' e t)
    ∧ (e ≠ e' → Manager.md5 digest o c m a e t ≠ Manager.md5 digest o c m a e' t)
    ∧ (t ≠ t' → Manager.md5 digest o c m a e t ≠ Manager.md5 digest o c m a e t')
    ∧ (c.indexIndex ++ " " ++ c.storage ≠ c'.indexIndex ++ " " ++ c'.storage →
        Manager.md5 digest o c m a e t ≠ Manager.md5 digest o c' m a e t) := by
  refine ⟨rfl, ?_, ?_, ?_, ?_, ?_, ?_⟩
  · exact fun hne heq => hne (md5Input_inj_optimizer (hinj heq))
  · exact fun hne heq => hne (md5Input_inj_model (hinj heq))
  · exact fun hne heq => hne (md5Input_inj_adaptor (hinj heq))
  · exact fun hne heq => hne (md5Input_inj_embedder (hinj heq))
  · exact fun hne heq => hne (md5Input_inj_time (hinj heq))
  · exact fun hne heq => hne (md5Input_inj_corpus (hinj heq))

/-- C1 witness: the sensitivity conclusions at concrete inputs, using the
identity function as a (trivially injective) digest. -/
theorem C1_witness :
    Manager.md5 id "opt1" (Corpus.mk "ix" "st") "mo" "ad" "em" "ti"
      ≠ Manager.md5 id "opt2" (Corpus.mk "ix" "st") "mo" "ad" "em" "ti" :=
  (C1_md5_deterministic_and_sensitive id (fun _ _ hxy => hxy) "opt1" "opt2"
    (Corpus.mk "ix" "st") (Corpus.mk "ix" "st") "mo" "mo" "ad" "ad" "em" "em"
    "ti" "ti").2.1 (by decide)

/-! ## The run loop -/

/-- The bounded launch loop yields the first `n` available step results. -/
theorem launchBounded_eq_take {V : Type} (n : Nat) (l : List (List (Nat × V))) :
    Manager.launchBounded n l = l.take n := by
  induction l generalizing n with
  | nil => cases n <;> rfl
  | cons x xs ih =>
    cases n with
    | zero => rfl
    | succ k => simpa [Manager.launchBounded] using ih k

/-- The launch loop stops at the earlier of budget and exhaustion. -/
theorem launch_length {V : Type} (opt : Optimizer V) (n : Nat) :
    (Manager._launch opt (some n)).length = min n opt.steps.length := by
  rw [Manager._launch, launchBounded_eq_take, List.length_take]

/-- C2: `Manager.run` stops at the earlier of optimizer exhaustion and the
step budget, treating exhaustion as successful completion.  An optimizer
exhausted after exactly 3 steps yields exactly those 3 step results for an
absent budget or any budget above 3, and a budget of 2 against the same
optimizer yields exactly the first 2 step results; `run` returns the
accumulation of exactly the yielded results in every case (no error: `run` is
total). -/
theorem C2_run_budget_and_exhaustion {V : Type} (opt : Optimizer V)
    (h3 : opt.steps.length = 3) :
    Manager._launch opt none = opt.steps
    ∧ (∀ b : Nat, 3 < b → Manager._launch opt (some b) = opt.steps)
    ∧ (Manager._launch opt (some 2)).length = 2
    ∧ Manager.run opt none = accumulate opt.steps
    ∧ (∀ b : Nat, 3 < b → Manager.run opt (some b) = accumulate opt.steps)
    ∧ Manager.run opt (some 2) = accumulate (opt.steps.take 2) := by
  have hb : ∀ b : Nat, 3 < b → Manager._launch opt (some b) = opt.steps := by
    intro b hlt
    rw [Manager._launch, launchBounded_eq_take]
    exact List.take_of_length_le (by omega)
  have h2 : Manager._launch opt (some 2) = opt.steps.take 2 := by
    rw [Manager._launch, launchBounded_eq_take]
  refine ⟨rfl, hb, ?_, rfl, ?_, ?_⟩
  · rw [h2, List.length_take, h3]
    decide
  · intro b hlt
    rw [Manager.run, hb b hlt]
  · rw [Manager.run, h2]

/-- C2 witness: a stub optimizer exhausted after exactly 3 steps, with integer
scores. -/
theorem C2_witness :
    Manager._launch (Optimizer.mk [[(0, (10 : Int))], [(1, 20)], [(2, 30)]]) none
      = [[(0, (10 : Int))], [(1, 20)], [(2, 30)]]
    ∧ (Manager._launch (Optimizer.mk [[(0, (10 : Int))], [(1, 20)], [(2, 30)]])
        (some 5)) = [[(0, (10 : Int))], [(1, 20)], [(2, 30)]]
    ∧ (Manager._launch (Optimizer.mk [[(0, (10 : Int))], [(1, 20)], [(2, 30)]])
        (some 2)).length = 2 := by
  have h := C2_run_budget_and_exhaustion
    (Optimizer.mk [[(0, (10 : Int))], [(1, 20)], [(2, 30)]]) (by rfl)
  exact ⟨h.1, h.2.1 5 (by decide), h.2.2.1⟩

/-! ## Last-write-wins accumulation -/

theorem dictUpdate_nil {V : Type} (d : Nat → Option V) : dictUpdate d [] = d := rfl

theorem dictUpdate_cons {V : Type} (d : Nat → Option V) (kv : Nat × V)
    (rest : List (Nat × V)) :
    dictUpdate d (kv :: rest) =
      dictUpdate (fun k => if k = kv.1 then some kv.2 else d k) rest := rfl

/-- One `dict.update` answers queries by the step mapping first (its last
entry for the key winning), falling back to the previous accumulator. -/
theorem dictUpdate_eq {V : Type} (res : List (Nat × V)) (d : Nat → Option V) (k : Nat) :
    dictUpdate d res k =
      match lookupLast res k with
      | some v => some v
      | none => d k := by
  induction res generalizing d with
  | nil => simp [dictUpdate_nil, lookupLast]
  | cons kv rest ih =>
    rw [dictUpdate_cons, ih]
    cases hl : lookupLast rest k with
    | some v => simp [lookupLast, hl]
    | none =>
      by_cases hk : k = kv.1
      · simp [lookupLast, ← hk, hl]
      · simp [lookupLast, hl, hk]

/-- The folded accumulator answers queries by the latest step containing the
key, falling back to the initial dictionary. -/
theorem foldl_dictUpdate_eq {V : Type} (l : List (List (Nat × V)))
    (d : Nat → Option V) (k : Nat) :
    (l.foldl dictUpdate d) k =
      match latestStepValue l k with
      | some v => some v
      | none => d k := by
  induction l generalizing d with
  | nil => simp [latestStepValue]
  | cons res rest ih =>
    rw [List.foldl_cons, ih]
    cases hl : latestStepValue rest k with
    | some v => simp [latestStepValue, hl]
    | none =>
      cases hr : lookupLast res k with
      | some v => simp [latestStepValue, hl, hr, dictUpdate_eq]
      | none => simp [latestStepValue, hl, hr, dictUpdate_eq]

/-- C8: in `Manager.run`, when a corpus row index appears in the step results
of more than one step, the accumulated value for that key is the value from
the latest step containing it (last-write-wins merge); a key appearing in only
one step keeps that step's value (the special case where the latest step
containing the key is the only one). -/
theorem C8_last_write_wins {V : Type} (opt : Optimizer V) (steps : Option Nat) (k : Nat) :
    Manager.run opt steps k = latestStepValue (Manager._launch opt steps) k := by
  rw [Manager.run, accumulate, foldl_dictUpdate_eq]
  cases latestStepValue (Manager._launch opt steps) k <;> rfl

/-! ## Loading persisted results -/

/-- C3: `Manager.load` raises `InvalidArgument` on a non-existent path and on
an existing directory with no csv file in it; on a directory holding at least
one csv file it returns the vertical concatenation of the frames of all the
csv files found there. -/
theorem C3_load (fs : FS) (path : String) :
    (FS.dirFiles fs path = none →
      Manager.load fs path = Except.error Err.invalidArgument)
    ∧ (∀ files, FS.dirFiles fs path = some files →
        files.filter (fun f => isCsvName f.1) = [] →
        Manager.load fs path = Except.error Err.invalidArgument)
    ∧ (∀ files f rest, FS.dirFiles fs path = some files →
        files.filter (fun f => isCsvName f.1) = f :: rest →
        Manager.load fs path =
          Except.ok (DataFrame.concatAll ((f :: rest).map (fun x => x.2)))) := by
  refine ⟨?_, ?_, ?_⟩
  · intro hnone
    simp [Manager.load, FS.globCsv, hnone]
  · intro files hsome hempty
    simp [Manager.load, FS.globCsv, hsome, hempty]
  · intro files f rest hsome hfilter
    simp [Manager.load, FS.globCsv, hsome, hfilter]

/-- C3 witness: a file system with one empty directory `"out"` and one
directory `"full"` holding a single csv file; `load` fails on the empty
directory and on the missing path `"nowhere"`, and concatenates on `"full"`. -/
theorem C3_witness :
    Manager.load (FS.mk [("out", []), ("full", [("r.csv", DataFrame.mk [[("s", "1")]])])])
        "nowhere" = Except.error Err.invalidArgument
    ∧ Manager.load (FS.mk [("out", []), ("full", [("r.csv", DataFrame.mk [[("s", "1")]])])])
        "out" = Except.error Err.invalidArgument
    ∧ Manager.load (FS.mk [("out", []), ("full", [("r.csv", DataFrame.mk [[("s", "1")]])])])
        "full" = Except.ok (DataFrame.concatAll [DataFrame.mk [[("s", "1")]]]) := by
  refine ⟨?_, ?_, ?_⟩
  · exact (C3_load (FS.mk [("out", []), ("full", [("r.csv", DataFrame.mk [[("s", "1")]])])])
      "nowhere").1 (by decide)
  · exact (C3_load (FS.mk [("out", []), ("full", [("r.csv", DataFrame.mk [[("s", "1")]])])])
      "out").2.1 [] (by decide) (by decide)
  · exact (C3_load (FS.mk [("out", []), ("full", [("r.csv", DataFrame.mk [[("s", "1")]])])])
      "full").2.2 [("r.csv", DataFrame.mk [[("s", "1")]])]
      ("r.csv", DataFrame.mk [[("s", "1")]]) [] (by decide) (by decide)

/-! ## Saving without a configured output directory -/

/-- C4: on a `Manager` constructed with no output path, `save` raises
`InvalidState` whatever the scores frame and descriptors, and the file system
is unchanged by the call (the raise happens before any write; only the heap
gained the private augmented copy that `with_identifier_cols` had already
made, exactly as in the Python source where the exception is raised after the
copy but before `to_csv`). -/
theorem C4_save_without_path (mgr : Manager) (hpath : mgr.path = none)
    (digest : String → String) (h : Heap) (scoresRef : Nat) (o : String)
    (c : Corpus) (m a e : String) (fs : FS) :
    (mgr.save digest h scoresRef o c m a e fs).2.1 = fs
    ∧ (mgr.save digest h scoresRef o c m a e fs).2.2 = some Err.invalidState := by
  constructor <;> simp [Manager.save, hpath]

/-- C4 witness: a concrete pathless manager, empty heap, empty file system. -/
theorem C4_witness :
    ((Manager.init none "2024-01-01-00-00-00").save id [] 0 "o" (Corpus.mk "i" "s")
        "m" "a" "e" (FS.mk [])).2.1 = FS.mk []
    ∧ ((Manager.init none "2024-01-01-00-00-00").save id [] 0 "o" (Corpus.mk "i" "s")
        "m" "a" "e" (FS.mk [])).2.2 = some Err.invalidState :=
  C4_save_without_path (Manager.init none "2024-01-01-00-00-00") rfl id [] 0 "o"
    (Corpus.mk "i" "s") "m" "a" "e" (FS.mk [])

/-! ## The start timestamp is recorded once -/

/-- C10: a `Manager` records its start timestamp exactly once, at
construction (`self._start = self.current()` is the only clock read in the
class; every later use goes through `self._start`).  Hence the identity
computed by `with_identifier_cols` — and so the filename used by `save` — on
one manager instance equals `Manager.md5` at the construction-time timestamp,
and is the same across repeated calls with identical descriptors, whatever
scores frame each call is given. -/
theorem C10_start_recorded_once (path : Option String) (now : String)
    (digest : String → String) (h1 h2 : Heap) (r1 r2 : Nat) (o : String)
    (c : Corpus) (m a e : String) :
    (Manager.init path now).start = now
    ∧ ((Manager.init path now).with_identifier_cols digest h1 r1 o c m a e).2.1
      = Manager.md5 digest o c m a e now
    ∧ ((Manager.init path now).with_identifier_cols digest h1 r1 o c m a e).2.1
      = ((Manager.init path now).with_identifier_cols digest h2 r2 o c m a e).2.1 :=
  ⟨rfl, rfl, rfl⟩

/-! ## The input frame is not mutated by `with_identifier_cols` -/

theorem heapGet_set_ne (h : Heap) (r i : Nat) (df : DataFrame) (hne : i ≠ r) :
    heapGet (heapSet h r df) i = heapGet h i := by
  simp [heapGet, heapSet, List.getD, List.getElem?_set, Ne.symm hne]

theorem heapGet_assign_ne (h : Heap) (r i : Nat) (col data : String) (hne : i ≠ r) :
    heapGet (heapAssign h r col data) i = heapGet h i :=
  heapGet_set_ne _ _ _ _ hne

theorem heapGet_append_lt (h : Heap) (df : DataFrame) (i : Nat)
    (hlt : i < List.length h) :
    heapGet (List.append h [df]) i = heapGet h i := by
  simp [heapGet, List.getD, List.append_eq, List.getElem?_append_left hlt]

/-- C9: `with_identifier_cols` does not mutate the input frame.  The source
copies the frame (`df = df.copy()`) and performs every column assignment on
the copy, so after the call the frame behind the caller's reference is
byte-for-byte what it was before; the call returns the run identity (the
digest of the descriptors with the manager's start time) together with a
reference to the augmented copy, which is a different object than the
input. -/
theorem C9_no_mutation (mgr : Manager) (digest : String → String) (h : Heap)
    (dfRef : Nat) (hlt : dfRef < List.length h) (o : String) (c : Corpus)
    (m a e : String) :
    heapGet (mgr.with_identifier_cols digest h dfRef o c m a e).1 dfRef
      = heapGet h dfRef
    ∧ (mgr.with_identifier_cols digest h dfRef o c m a e).2.2 ≠ dfRef
    ∧ (mgr.with_identifier_cols digest h dfRef o c m a e).2.1
      = Manager.md5 digest o c m a e mgr.start := by
  have hne : dfRef ≠ List.length h := Nat.ne_of_lt hlt
  refine ⟨?_, ?_, rfl⟩
  · show heapGet (heapAssign (heapAssign (heapAssign (heapAssign (heapAssign
      (heapAssign (heapAssign (heapAssign (List.append h [heapGet h dfRef])
        (List.length h) columns.OPTIMIZER o) (List.length h) columns.MODEL m)
        (List.length h) columns.ADAPTOR a) (List.length h) columns.INDEX
        c.indexIndex) (List.length h) columns.STORAGE c.storage)
        (List.length h) columns.EMBEDDER e) (List.length h) columns.TIME
        mgr.start) (List.length h) columns.MD5
        (Manager.md5 digest o c m a e mgr.start)) dfRef = heapGet h dfRef
    rw [heapGet_assign_ne _ _ _ _ _ hne, heapGet_assign_ne _ _ _ _ _ hne,
      heapGet_assign_ne _ _ _ _ _ hne, heapGet_assign_ne _ _ _ _ _ hne,
      heapGet_assign_ne _ _ _ _ _ hne, heapGet_assign_ne _ _ _ _ _ hne,
      heapGet_assign_ne _ _ _ _ _ hne, heapGet_assign_ne _ _ _ _ _ hne,
      heapGet_append_lt _ _ _ hlt]
  · show List.length h ≠ dfRef
    exact Ne.symm hne

/-- C9 witness: a one-frame heap; the frame is unchanged by the call. -/
theorem C9_witness :
    heapGet ((Manager.init none "t0").with_identifier_cols id
      [DataFrame.mk [[("score", "1")]]] 0 "o" (Corpus.mk "i" "s") "m" "a" "e").1 0
      = heapGet [DataFrame.mk [[("score", "1")]]] 0 :=
  (C9_no_mutation (Manager.init none "t0") id [DataFrame.mk [[("score", "1")]]] 0
    (by decide) "o" (Corpus.mk "i" "s") "m" "a" "e").1

/-! ## Persistence dedup by run identity -/

/-- With a configured output directory, `save` writes the augmented copy to
`<md5>.csv` inside it and raises nothing. -/
theorem save_with_path (mgr : Manager) (p : String) (hpath : mgr.path = some p)
    (digest : String → String) (h : Heap) (r : Nat) (o : String) (c : Corpus)
    (m a e : String) (fs : FS) :
    mgr.save digest h r o c m a e fs =
      ((mgr.with_identifier_cols digest h r o c m a e).1,
        fs.write p (Manager.md5 digest o c m a e mgr.start ++ ".csv")
          (heapGet (mgr.with_identifier_cols digest h r o c m a e).1
            (mgr.with_identifier_cols digest h r o c m a e).2.2),
        none) := by
  simp only [Manager.save, hpath]
  rfl

/-- If exactly one of the six descriptor strings differs between two runs,
their identities differ (for a collision-free digest). -/
theorem md5_ne_of_differsInOne (digest : String → String)
    (hinj : Function.Injective digest) (d1 d2 : RunDescr) (t : String)
    (hd : DiffersInOneDescr d1 d2) :
    Manager.md5 digest d1.optimizer d1.corpus d1.model d1.adaptor d1.embedder t
      ≠ Manager.md5 digest d2.optimizer d2.corpus d2.model d2.adaptor d2.embedder t := by
  intro heq
  have hin := hinj heq
  rcases hd with ⟨hne, hc, hm, ha, he⟩ | ⟨hne, hst, ho, hm, ha, he⟩ |
    ⟨hne, hix, ho, hm, ha, he⟩ | ⟨hne, ho, hc, ha, he⟩ | ⟨hne, ho, hc, hm, he⟩ |
    ⟨hne, ho, hc, hm, ha⟩
  · rw [hc, hm, ha, he] at hin
    exact hne (md5Input_inj_optimizer hin)
  · rw [ho, hm, ha, he] at hin
    have hj := md5Input_inj_corpus hin
    rw [hst] at hj
    exact hne (strCancelRight (strCancelRight hj))
  · rw [ho, hm, ha, he] at hin
    have hj := md5Input_inj_corpus hin
    rw [hix] at hj
    exact hne (strCancelLeft hj)
  · rw [ho, hc, ha, he] at hin
    exact hne (md5Input_inj_model hin)
  · rw [ho, hc, hm, he] at hin
    exact hne (md5Input_inj_adaptor hin)
  · rw [ho, hc, hm, ha] at hin
    exact hne (md5Input_inj_embedder hin)

/-- C5: on a manager with a configured output directory, starting from an
empty directory, saving twice with identical descriptors (and the manager's
one start time) writes to the same `<md5>.csv` filename and leaves exactly
one file in the directory; if instead exactly one of the six descriptor
strings differs between the two saves, the filenames differ (for a
collision-free digest) and the directory holds exactly two files. -/
theorem C5_persistence_dedup (mgr : Manager) (p : String) (hpath : mgr.path = some p)
    (digest : String → String) (hinj : Function.Injective digest)
    (h1c h2c : Heap) (r1 r2 : Nat) (d1 d2 : RunDescr) :
    (d1 = d2 →
      (FS.dirFiles ((mgr.save digest h2c r2 d2.optimizer d2.corpus d2.model
          d2.adaptor d2.embedder
          ((mgr.save digest h1c r1 d1.optimizer d1.corpus d1.model d1.adaptor
            d1.embedder (FS.mk [(p, [])])).2.1)).2.1) p).map
        (fun l => l.map Prod.fst)
      = some [Manager.md5 digest d1.optimizer d1.corpus d1.model d1.adaptor
          d1.embedder mgr.start ++ ".csv"])
    ∧ (DiffersInOneDescr d1 d2 →
      Manager.md5 digest d1.optimizer d1.corpus d1.model d1.adaptor d1.embedder
          mgr.start ++ ".csv"
        ≠ Manager.md5 digest d2.optimizer d2.corpus d2.model d2.adaptor
          d2.embedder mgr.start ++ ".csv"
      ∧ (FS.dirFiles ((mgr.save digest h2c r2 d2.optimizer d2.corpus d2.model
          d2.adaptor d2.embedder
          ((mgr.save digest h1c r1 d1.optimizer d1.corpus d1.model d1.adaptor
            d1.embedder (FS.mk [(p, [])])).2.1)).2.1) p).map
        (fun l => l.map Prod.fst)
      = some [Manager.md5 digest d1.optimizer d1.corpus d1.model d1.adaptor
            d1.embedder mgr.start ++ ".csv",
          Manager.md5 digest d2.optimizer d2.corpus d2.model d2.adaptor
            d2.embedder mgr.start ++ ".csv"]) := by
  rw [save_with_path mgr p hpath, save_with_path mgr p hpath]
  constructor
  · intro hdd
    subst hdd
    simp [FS.write, FS.dirFiles, assocLookup, upsertAssoc]
  · intro hd
    have hmd5 := md5_ne_of_differsInOne digest hinj d1 d2 mgr.start hd
    have hfname : Manager.md5 digest d1.optimizer d1.corpus d1.model d1.adaptor
        d1.embedder mgr.start ++ ".csv"
        ≠ Manager.md5 digest d2.optimizer d2.corpus d2.model d2.adaptor
          d2.embedder mgr.start ++ ".csv" := by
      intro hc
      exact hmd5 (strCancelRight hc)
    refine ⟨hfname, ?_⟩
    simp [FS.write, FS.dirFiles, assocLookup, upsertAssoc, hfname]

/-- C5 witness: concrete manager with output directory `"out"`, identity
digest; identical descriptors give directory listing `[<md5>.csv]`, and
descriptors differing only in the optimizer give a two-file listing. -/
theorem C5_witness :
    (FS.dirFiles (((Manager.init (some "out") "t0").save id [] 0 "o"
        (Corpus.mk "i" "s") "m" "a" "e"
        (((Manager.init (some "out") "t0").save id [] 0 "o" (Corpus.mk "i" "s")
          "m" "a" "e" (FS.mk [("out", [])])).2.1)).2.1) "out").map
      (fun l => l.map Prod.fst)
    = some [Manager.md5 id "o" (Corpus.mk "i" "s") "m" "a" "e" "t0" ++ ".csv"]
    ∧ (FS.dirFiles (((Manager.init (some "out") "t0").save id [] 0 "o2"
        (Corpus.mk "i" "s") "m" "a" "e"
        (((Manager.init (some "out") "t0").save id [] 0 "o" (Corpus.mk "i" "s")
          "m" "a" "e" (FS.mk [("out", [])])).2.1)).2.1) "out").map
      (fun l => l.map Prod.fst)
    = some [Manager.md5 id "o" (Corpus.mk "i" "s") "m" "a" "e" "t0" ++ ".csv",
        Manager.md5 id "o2" (Corpus.mk "i" "s") "m" "a" "e" "t0" ++ ".csv"] := by
  constructor
  · exact (C5_persistence_dedup (Manager.init (some "out") "t0") "out" rfl id
      (fun _ _ hxy => hxy) [] [] 0 0
      (RunDescr.mk "o" (Corpus.mk "i" "s") "m" "a" "e")
      (RunDescr.mk "o" (Corpus.mk "i" "s") "m" "a" "e")).1 rfl
  · exact ((C5_persistence_dedup (Manager.init (some "out") "t0") "out" rfl id
      (fun _ _ hxy => hxy) [] [] 0 0
      (RunDescr.mk "o" (Corpus.mk "i" "s") "m" "a" "e")
      (RunDescr.mk "o2" (Corpus.mk "i" "s") "m" "a" "e")).2
      (Or.inl ⟨by decide, rfl, rfl, rfl, rfl⟩)).2

/-! ## Index construction -/

/-- On finite data, normalization succeeds and preserves the shape. -/
theorem normalize_ok (e : NDArray)
    (hfin : e.rows.all (fun r => r.all PyFloat.isFinite) = true) :
    ∃ e2 : NDArray, utils.normalize e = Except.ok e2
      ∧ e2.ncols = e.ncols ∧ e2.rows.length = e.rows.length := by
  rw [utils.normalize, if_pos hfin]
  exact ⟨_, rfl, rfl, by simp⟩

/-- On a non-empty embedding set, the boundary is computed and has one
`(min, max)` pair per column. -/
theorem boundaries_ok (e : NDArray) (hN : e.rows.length ≠ 0) (hD : e.ncols ≠ 0) :
    ∃ b : Boundary, utils.boundaries e = Except.ok b ∧ b.dims = e.ncols := by
  rw [utils.boundaries, if_neg (by simp [hN, hD])]
  exact ⟨_, rfl, by simp [Boundary.dims]⟩

/-- `Distance.lookup` either rejects the argument or resolves a distance. -/
theorem lookupSplit (x : String ⊕ Distance) :
    Distance.lookup x = Except.error Err.invalidArgument
    ∨ ∃ d, Distance.lookup x = Except.ok d := by
  rcases x with s | d
  · unfold Distance.lookup
    split
    · exact Or.inr ⟨_, rfl⟩
    · exact Or.inr ⟨_, rfl⟩
    · exact Or.inr ⟨_, rfl⟩
    · exact Or.inl rfl
  · exact Or.inr ⟨d, rfl⟩

/-- C6: for every N×D embedding matrix with N≥1 and D≥1 and every supported
`Distance` (passed as an enum member, with or without normalization — on
finite data when normalization is requested), index construction succeeds and
the constructed index satisfies `boundary.dims = D`, and the invariant
`boundary.dims = embeddings.width` (the source's own assert) holds for the
constructed, never-mutated index, as does `dims = D`. -/
theorem C6_boundary_dims (e : NDArray) (hN : 1 ≤ e.rows.length) (hD : 1 ≤ e.ncols)
    (d : Distance) (nrm : Bool) (istr : String) (bs : Nat)
    (hfin : nrm = true → e.rows.all (fun r => r.all PyFloat.isFinite) = true) :
    ∃ idx : FaissIndex,
      FaissIndex.init e (Sum.inr d) nrm istr bs = Except.ok idx
      ∧ idx.boundary.dims = e.ncols
      ∧ idx.boundary.dims = idx.embeddings.ncols
      ∧ idx.dims = e.ncols := by
  cases nrm with
  | false =>
    obtain ⟨b, hbeq, hdims⟩ := boundaries_ok e (by omega) (by omega)
    refine ⟨⟨e, bs, d, b, istr⟩, ?_, hdims, hdims, rfl⟩
    simp [FaissIndex.init, Bind.bind, Except.bind, Distance.lookup, hbeq, hdims]
  | true =>
    obtain ⟨e2, hneq, hncols, hrows⟩ := normalize_ok e (hfin rfl)
    obtain ⟨b, hbeq, hdims⟩ := boundaries_ok e2 (by omega) (by omega)
    refine ⟨⟨e2, bs, d, b, istr⟩, ?_, ?_, hdims, hncols⟩
    · simp [FaissIndex.init, Bind.bind, Except.bind, Distance.lookup, hneq, hbeq, hdims]
    · rw [hdims, hncols]

/-- C6 witness: the 1×1 matrix `[[1]]` with L2 distance and normalization. -/
theorem C6_witness :
    ∃ idx : FaissIndex,
      FaissIndex.init (NDArray.mk [[PyFloat.fin 1]] 1 (by decide)) (Sum.inr .l2)
          true "Flat" 64 = Except.ok idx
      ∧ idx.boundary.dims = 1
      ∧ idx.boundary.dims = idx.embeddings.ncols
      ∧ idx.dims = 1 :=
  C6_boundary_dims (NDArray.mk [[PyFloat.fin 1]] 1 (by decide)) (by decide)
    (by decide) .l2 true "Flat" 64 (fun _ => by decide)

/-- C7: index construction fails with `InvalidArgument` on an empty embedding
matrix (N=0 or D=0, whatever the distance argument and the normalization
flag), and fails with `InvalidArgument` when normalization is requested and
the data contains a non-finite value. -/
theorem C7_init_invalid (e : NDArray) (distance : String ⊕ Distance) (nrm : Bool)
    (istr : String) (bs : Nat) :
    (e.rows.length = 0 ∨ e.ncols = 0 →
      FaissIndex.init e distance nrm istr bs = Except.error Err.invalidArgument)
    ∧ (nrm = true → (∃ r ∈ e.rows, ∃ x ∈ r, x.isFinite = false) →
      FaissIndex.init e distance nrm istr bs = Except.error Err.invalidArgument) := by
  constructor
  · intro h0
    have hbe : ∀ e2 : NDArray, e2.rows.length = 0 ∨ e2.ncols = 0 →
        utils.boundaries e2 = Except.error Err.invalidArgument := by
      intro e2 h2
      rw [utils.boundaries, if_pos h2]
    cases nrm with
    | false =>
      rcases lookupSplit distance with hle | ⟨dd, hlo⟩
      · simp [FaissIndex.init, Bind.bind, Except.bind, hle]
      · simp [FaissIndex.init, Bind.bind, Except.bind, hlo, hbe e h0]
    | true =>
      have hall : e.rows.all (fun r => r.all PyFloat.isFinite) = true := by
        rw [List.all_eq_true]
        intro r hr
        rcases h0 with h | h
        · exact absurd (List.length_eq_zero.mp h ▸ hr) (List.not_mem_nil r)
        · have hlen := e.rect r hr
          rw [h] at hlen
          rw [List.length_eq_zero.mp hlen]
          rfl
      obtain ⟨e2, hneq, hncols, hrows⟩ := normalize_ok e hall
      have h02 : e2.rows.length = 0 ∨ e2.ncols = 0 := by
        rcases h0 with h | h
        · exact Or.inl (by rw [hrows, h])
        · exact Or.inr (by rw [hncols, h])
      rcases lookupSplit distance with hle | ⟨dd, hlo⟩
      · simp [FaissIndex.init, Bind.bind, Except.bind, hneq, hle]
      · simp [FaissIndex.init, Bind.bind, Except.bind, hneq, hlo, hbe e2 h02]
  · intro hn hx
    have hall : e.rows.all (fun r => r.all PyFloat.isFinite) = false := by
      rw [List.all_eq_false]
      obtain ⟨r, hr, x, hxr, hxf⟩ := hx
      refine ⟨r, hr, ?_⟩
      rw [Bool.not_eq_true, List.all_eq_false]
      exact ⟨x, hxr, by simp [hxf]⟩
    have hne : utils.normalize e = Except.error Err.invalidArgument := by
      rw [utils.normalize, if_neg (by simp [hall])]
    subst hn
    simp [FaissIndex.init, Bind.bind, Except.bind, hne]

/-- C7 witness: the 0×1 matrix fails, and the 1×1 matrix holding NaN fails
under normalization. -/
theorem C7_witness :
    FaissIndex.init (NDArray.mk [] 1 (by decide)) (Sum.inr .l2) true "Flat" 64
      = Except.error Err.invalidArgument
    ∧ FaissIndex.init (NDArray.mk [[PyFloat.nan]] 1 (by decide)) (Sum.inr .l2)
        true "Flat" 64 = Except.error Err.invalidArgument :=
  ⟨(C7_init_invalid (NDArray.mk [] 1 (by decide)) (Sum.inr .l2) true "Flat" 64).1
      (Or.inl (by decide)),
    (C7_init_invalid (NDArray.mk [[PyFloat.nan]] 1 (by decide)) (Sum.inr .l2) true
      "Flat" 64).2 rfl
      ⟨[PyFloat.nan], by decide, PyFloat.nan, by decide, by decide⟩⟩
